import Mathlib

/-
Shallow embedding of the WhatsApp message tracker (src/app.py).

A pandas DataFrame is modelled as a `Table`: flags recording which of the
three relevant columns are present, plus an ordered list of rows.  A cell
that pandas would hold as NaN (missing value) is `Option.none`; `pyStr`
models Python str applied to such a cell (NaN prints as nan, which is what
astype(str) produces).
-/

namespace WhatsAppTracker

/-- One report row; cells that may be NaN are Option String. -/
structure Row where
  phone_number : Option String
  delivery_status : Option String
  delivery_description : Option String
deriving DecidableEq

/-- A loaded dataframe: which of the relevant columns exist, plus the rows. -/
structure Table where
  hasPhoneCol : Bool
  hasStatusCol : Bool
  hasDescCol : Bool
  rows : List Row
deriving DecidableEq

/-- Python str applied to a pandas cell: a NaN cell prints as nan. -/
def pyStr : Option String → String
  | none => "nan"
  | some s => s

/-- First maximal run of digit characters in a character list, none when no
digit occurs: the leftmost greedy match of the regex (\d+). -/
def findRun : List Char → Option (List Char)
  | [] => none
  | c :: cs => if c.isDigit then some ((c :: cs).takeWhile Char.isDigit) else findRun cs

/-- The regex extraction at app.py lines 29 and 56: str.extract with pattern
(\d+), group 0; yields NaN when the string holds no digit. -/
def firstDigitRun (s : String) : Option String :=
  (findRun s.data).map String.mk

/-- A phone cell after astype(str).str.extract: app.py lines 29 and 56. -/
def extractPhone (v : Option String) : Option String :=
  firstDigitRun (pyStr v)

/-- app.py line 175: astype(str).str.replace of every non-digit character
by the empty string (regex \D). -/
def cleanPhone (v : Option String) : String :=
  String.mk ((pyStr v).data.filter Char.isDigit)

/-- load_data, app.py lines 28-29: when a phone_number column exists, each
value is replaced by its first digit run.  Datetime handling is omitted:
no claim depends on it.  Row order and count are preserved. -/
def load_data (t : Table) : Table :=
  if t.hasPhoneCol then
    { t with rows := t.rows.map fun r => { r with phone_number := extractPhone r.phone_number } }
  else t

/-- The allow-list of app.py line 50. -/
def success_statuses : List String := ["SUCCESS", "DELIVERED", "READ"]

/-- Python str.upper: uppercase every character of the string. -/
def strUpper (s : String) : String := String.mk (s.data.map Char.toUpper)

/-- app.py lines 51 and 74: delivery_status.str.upper().isin(success_statuses).
The str accessor maps a NaN cell to NaN and isin maps NaN to False. -/
def statusIsSuccess : Option String → Bool
  | none => false
  | some s => decide (strUpper s ∈ success_statuses)

/-- A row is kept by the failure filter of app.py line 51 (the negation of
the isin mask). -/
def is_failed (v : Option String) : Bool :=
  !statusIsSuccess v

/-- A row of the failed dataframe produced by analyze_failures. -/
structure FailedRow where
  phone_number : Option String
  delivery_status : Option String
  failure_reason : Option String
deriving DecidableEq

/-- analyze_failures, app.py lines 43-63.  Returns the failed rows and the
list of warning messages surfaced via st.warning.  When the status column
is missing it warns and returns an empty frame.  Otherwise it filters the
non-success rows; on a nonempty result it re-extracts the phone column
(when present, else warns) and sets failure_reason by failed.get, which
returns the existing delivery_description column unchanged (NaN included)
and falls back to the scalar default only when that column is absent. -/
def analyze_failures (t : Table) : List FailedRow × List String :=
  if t.hasStatusCol then
    let failed := t.rows.filter fun r => is_failed r.delivery_status
    if failed.isEmpty then ([], [])
    else
      let warns := if t.hasPhoneCol then [] else ["Phone Number column not found in the data"]
      (failed.map fun r =>
        { phone_number := if t.hasPhoneCol then extractPhone r.phone_number else r.phone_number
          delivery_status := r.delivery_status
          failure_reason :=
            if t.hasDescCol then r.delivery_description else some "No reason provided" },
       warns)
  else ([], ["Delivery Status column not found"])

/-- app.py line 73. -/
def total_messages (t : Table) : Nat := t.rows.length

/-- The count inside app.py line 74 (rows whose upper-cased status is in
the allow-list). -/
def success (t : Table) : Nat :=
  t.rows.countP fun r => statusIsSuccess r.delivery_status

/-- app.py line 74 as executed by the main flow: the unguarded column
access df[delivery_status] raises KeyError when the column is absent. -/
def successCount (t : Table) : Except String Nat :=
  if t.hasStatusCol then .ok (success t) else .error "KeyError: delivery_status"

/-- app.py line 75: failed = total_messages - success. -/
def failed (t : Table) : Nat := total_messages t - success t

/-- A percentage num/den*100 as on app.py lines 79-80 and 182-183; division
by a zero denominator has no defined rational value (Python raises
ZeroDivisionError there), hence none. -/
def pct (num den : Nat) : Option ℚ :=
  if den = 0 then none else some ((num : ℚ) / (den : ℚ) * 100)

/-- app.py line 79: the success percentage of the overview metrics. -/
def success_pct (t : Table) : Option ℚ := pct (success t) (total_messages t)

/-- app.py line 80: the failure percentage of the overview metrics. -/
def failed_pct (t : Table) : Option ℚ := pct (failed t) (total_messages t)

/-- app.py line 176: is_valid = len(phone_clean) >= 10. -/
def is_valid (x : String) : Bool := decide (10 ≤ x.length)

/-- app.py line 178: valid_count = sum of the is_valid column, where
phone_clean comes from line 175. -/
def valid_count (t : Table) : Nat :=
  t.rows.countP fun r => is_valid (cleanPhone r.phone_number)

/-- app.py line 179: invalid_count = len(df) - valid_count. -/
def invalid_count (t : Table) : Nat := total_messages t - valid_count t

/-- app.py line 182: the valid-numbers percentage. -/
def valid_pct (t : Table) : Option ℚ := pct (valid_count t) (total_messages t)

/-- app.py line 183: the invalid-numbers percentage. -/
def invalid_pct (t : Table) : Option ℚ := pct (invalid_count t) (total_messages t)

/-- app.py line 147: the failed rows whose failure_reason equals the
selected reason (pandas == against a scalar; a NaN reason compares False). -/
def filtered_contacts (failedRows : List FailedRow) (reason : String) : List FailedRow :=
  failedRows.filter fun r => r.failure_reason == some reason

/-- Deduplication keeping the first occurrence, as pandas drop_duplicates
does; seen accumulates the values already emitted. -/
def dedupAux {α : Type} [DecidableEq α] : List α → List α → List α
  | [], _ => []
  | a :: l, seen => if a ∈ seen then dedupAux l seen else a :: dedupAux l (a :: seen)

/-- drop_duplicates on a single-column frame: first occurrences, order kept. -/
def dedupFirst {α : Type} [DecidableEq α] (l : List α) : List α :=
  dedupAux l []

/-- app.py line 162: the exported contact list, the phone_number column of
the filtered contacts with duplicates dropped. -/
def contact_csv (failedRows : List FailedRow) (reason : String) : List (Option String) :=
  dedupFirst ((filtered_contacts failedRows reason).map fun r => r.phone_number)

/-- The phone_clean value a raw phone cell receives in the full pipeline:
load_data first replaces the cell by its first digit run (line 29), then
line 175 strips non-digits from the result. -/
def pipeline_phone_clean (raw : Option String) : String :=
  cleanPhone (extractPhone raw)

/-- The spec-side description of first-seen deduplication: fold left,
appending each value not seen before. -/
def specFirstSeen {α : Type} [DecidableEq α] (l : List α) : List α :=
  l.foldl (fun acc a => if a ∈ acc then acc else acc ++ [a]) []

/-! Helper lemmas about the digit-run extraction. -/

lemma findRun_eq_none (l : List Char) (h : ∀ c ∈ l, c.isDigit = false) :
    findRun l = none := by
  induction l with
  | nil => rfl
  | cons c cs ih =>
    have hc : c.isDigit = false := h c (List.mem_cons_self c cs)
    simp only [findRun, hc, Bool.false_eq_true, if_false]
    exact ih fun x hx => h x (List.mem_cons_of_mem c hx)

lemma findRun_sound (l r : List Char) (h : findRun l = some r) :
    (∀ c ∈ r, c.isDigit = true) ∧ r ≠ [] := by
  induction l with
  | nil => simp [findRun] at h
  | cons c cs ih =>
    by_cases hc : c.isDigit
    · simp only [findRun, hc, if_true, Option.some_inj] at h
      subst h
      refine ⟨fun x hx => List.mem_takeWhile_imp hx, ?_⟩
      rw [List.takeWhile_cons_of_pos hc]
      exact List.cons_ne_nil c _
    · simp only [findRun, hc, if_false] at h
      exact ih h

lemma findRun_all_digits (l : List Char) (hne : l ≠ []) (h : ∀ c ∈ l, c.isDigit = true) :
    findRun l = some l := by
  cases l with
  | nil => exact absurd rfl hne
  | cons c cs =>
    have hc : c.isDigit = true := h c (List.mem_cons_self c cs)
    simp only [findRun, hc, if_true, Option.some_inj]
    exact List.takeWhile_eq_self_iff.mpr h

/-! Helper lemmas about first-occurrence deduplication. -/

lemma dedupAux_mem {α : Type} [DecidableEq α] (l : List α) (seen : List α) (x : α) :
    x ∈ dedupAux l seen ↔ x ∈ l ∧ x ∉ seen := by
  induction l generalizing seen with
  | nil => simp [dedupAux]
  | cons a l ih =>
    simp only [dedupAux]
    by_cases ha : a ∈ seen
    · rw [if_pos ha, ih]
      constructor
      · rintro ⟨h1, h2⟩
        exact ⟨List.mem_cons_of_mem a h1, h2⟩
      · rintro ⟨h1, h2⟩
        rcases List.mem_cons.mp h1 with h3 | h3
        · exact absurd (h3 ▸ ha) h2
        · exact ⟨h3, h2⟩
    · rw [if_neg ha]
      simp only [List.mem_cons, ih]
      by_cases hx : x = a
      · subst hx
        simp [ha]
      · simp [hx]

lemma dedupAux_nodup {α : Type} [DecidableEq α] (l : List α) (seen : List α) :
    (dedupAux l seen).Nodup := by
  induction l generalizing seen with
  | nil => exact List.nodup_nil
  | cons a l ih =>
    simp only [dedupAux]
    by_cases ha : a ∈ seen
    · rw [if_pos ha]; exact ih seen
    · rw [if_neg ha]
      refine List.nodup_cons.mpr ⟨?_, ih (a :: seen)⟩
      rw [dedupAux_mem]
      rintro ⟨-, h2⟩
      exact h2 (List.mem_cons_self a seen)

lemma dedupAux_sublist {α : Type} [DecidableEq α] (l : List α) (seen : List α) :
    List.Sublist (dedupAux l seen) l := by
  induction l generalizing seen with
  | nil => exact List.Sublist.refl []
  | cons a l ih =>
    simp only [dedupAux]
    by_cases ha : a ∈ seen
    · rw [if_pos ha]; exact List.Sublist.cons a (ih seen)
    · rw [if_neg ha]; exact List.Sublist.cons₂ a (ih (a :: seen))

lemma dedupAux_seen_congr {α : Type} [DecidableEq α] (l : List α) (s₁ s₂ : List α)
    (h : ∀ x, x ∈ s₁ ↔ x ∈ s₂) : dedupAux l s₁ = dedupAux l s₂ := by
  induction l generalizing s₁ s₂ with
  | nil => rfl
  | cons a l ih =>
    simp only [dedupAux]
    by_cases ha : a ∈ s₁
    · rw [if_pos ha, if_pos ((h a).mp ha)]
      exact ih s₁ s₂ h
    · rw [if_neg ha, if_neg (fun hb => ha ((h a).mpr hb))]
      have h2 : ∀ x, x ∈ a :: s₁ ↔ x ∈ a :: s₂ := by
        intro x
        simp only [List.mem_cons, h x]
      rw [ih (a :: s₁) (a :: s₂) h2]

lemma foldl_dedupAux {α : Type} [DecidableEq α] (l : List α) (acc : List α) :
    l.foldl (fun acc a => if a ∈ acc then acc else acc ++ [a]) acc
      = acc ++ dedupAux l acc := by
  induction l generalizing acc with
  | nil => simp [dedupAux]
  | cons a l ih =>
    simp only [List.foldl_cons, dedupAux]
    by_cases ha : a ∈ acc
    · rw [if_pos ha, if_pos ha, ih]
    · rw [if_neg ha, if_neg ha, ih]
      rw [dedupAux_seen_congr l (acc ++ [a]) (a :: acc)
        (by intro x; simp only [List.mem_append, List.mem_singleton, List.mem_cons]; tauto)]
      simp

lemma specFirstSeen_eq_dedupFirst {α : Type} [DecidableEq α] (l : List α) :
    specFirstSeen l = dedupFirst l := by
  unfold specFirstSeen dedupFirst
  rw [foldl_dedupAux]
  rfl

/-! The claim theorems. -/

/-- C1: a row is classified as a failure if and only if its delivery
status, upper-cased, is none of SUCCESS, DELIVERED, READ; this holds for
arbitrary casing of the status, and an unrecognized, empty or null status
is classified as a failure. -/
theorem failure_classifier_allowlist :
    (∀ v : Option String, is_failed v = true ↔
      ∀ s, v = some s →
        strUpper s ≠ "SUCCESS" ∧ strUpper s ≠ "DELIVERED" ∧ strUpper s ≠ "READ")
    ∧ is_failed (some "delivered") = false
    ∧ is_failed (some "Delivered") = false
    ∧ is_failed (some "DELIVERED") = false
    ∧ is_failed (some "success") = false
    ∧ is_failed (some "Read") = false
    ∧ is_failed none = true
    ∧ is_failed (some "") = true
    ∧ is_failed (some "FAILED") = true := by
  refine ⟨?_, by decide, by decide, by decide, by decide, by decide, by decide, by decide,
    by decide⟩
  intro v
  cases v with
  | none => simp [is_failed, statusIsSuccess]
  | some s =>
    simp only [is_failed, statusIsSuccess, success_statuses, Bool.not_eq_true',
      decide_eq_false_iff_not, List.mem_cons, List.mem_singleton, List.not_mem_nil,
      Option.some_inj]
    constructor
    · intro h t ht
      subst ht
      push_neg at h
      tauto
    · intro h hmem
      rcases h s rfl with ⟨h1, h2, h3⟩
      rcases hmem with h4 | h4 | h4 | h4
      · exact h1 h4
      · exact h2 h4
      · exact h3 h4
      · exact h4

/-- C2: the number of rows is preserved by loading, and the computed counts
partition it: success plus failed equals the total, and valid plus invalid
equals the total. -/
theorem counts_partition (t : Table) :
    total_messages (load_data t) = t.rows.length
    ∧ success t + failed t = total_messages t
    ∧ valid_count t + invalid_count t = total_messages t := by
  refine ⟨?_, ?_, ?_⟩
  · unfold total_messages load_data
    by_cases h : t.hasPhoneCol <;> simp [h]
  · have h := List.countP_le_length (fun r => statusIsSuccess r.delivery_status) (l := t.rows)
    simp only [success, failed, total_messages]
    omega
  · have h := List.countP_le_length
      (fun r => is_valid (cleanPhone r.phone_number)) (l := t.rows)
    simp only [valid_count, invalid_count, total_messages]
    omega

/-- C3, code bug: with a delivery_description column present, a failed row
whose description cell is null keeps a null failure_reason, not the
placeholder No reason provided; the placeholder appears only when the
whole column is missing. -/
theorem failure_reason_null_bug :
    ((analyze_failures ⟨true, true, true, [⟨some "555", some "FAILED", none⟩]⟩).1.map
        fun r => r.failure_reason) = [none]
    ∧ (none : Option String) ≠ some "No reason provided"
    ∧ ((analyze_failures ⟨true, true, false, [⟨some "555", some "FAILED", none⟩]⟩).1.map
        fun r => r.failure_reason) = [some "No reason provided"] := by
  refine ⟨by decide, by decide, by decide⟩

/-- C4, counterexample: in the pipeline the phone cell is first replaced by
its first digit run in load_data, so for the raw input +91-98765 43210 the
derived phone_clean is 91 and not the concatenation of all digits
919876543210 that the claim asserts. -/
theorem phone_clean_pipeline_counterexample :
    pipeline_phone_clean (some "+91-98765 43210") = "91"
    ∧ String.mk (("+91-98765 43210").data.filter Char.isDigit) = "919876543210"
    ∧ pipeline_phone_clean (some "+91-98765 43210") ≠ "919876543210" := by
  refine ⟨by decide, by decide, by decide⟩

/-- C4, amended: for every raw phone cell, the pipeline phone_clean equals
the first maximal digit run of the raw value (the empty string when the
value holds no digit), and phone_clean consists of digits only. -/
theorem phone_clean_firstrun (raw : Option String) :
    pipeline_phone_clean raw = (extractPhone raw).getD ""
    ∧ (pipeline_phone_clean raw).data.all Char.isDigit = true := by
  cases h : findRun (pyStr raw).data with
  | none =>
    have e1 : extractPhone raw = none := by
      unfold extractPhone firstDigitRun
      rw [h]
      rfl
    unfold pipeline_phone_clean
    rw [e1]
    exact ⟨by decide, by decide⟩
  | some r =>
    have hs := findRun_sound _ _ h
    have e1 : extractPhone raw = some (String.mk r) := by
      unfold extractPhone firstDigitRun
      rw [h]
      rfl
    unfold pipeline_phone_clean
    rw [e1]
    have hfil : List.filter Char.isDigit r = r := List.filter_eq_self.mpr hs.1
    constructor
    · show String.mk (List.filter Char.isDigit r) = (some (String.mk r)).getD ""
      rw [hfil]
      rfl
    · show (String.mk (List.filter Char.isDigit r)).data.all Char.isDigit = true
      rw [hfil]
      exact List.all_eq_true.mpr hs.1

/-- C5: a cleaned phone number is valid exactly when it has at least ten
characters; nine digits are invalid, ten digits are valid, and the
all-zeros string of length ten is valid. -/
theorem is_valid_length_threshold :
    (∀ x : String, is_valid x = true ↔ 10 ≤ x.length)
    ∧ is_valid "123456789" = false
    ∧ is_valid "1234567890" = true
    ∧ is_valid "0000000000" = true := by
  refine ⟨fun x => by simp [is_valid], by decide, by decide, by decide⟩

/-- C6, code bug: on a table without a delivery_status column the failure
classifier alone returns an empty failed set with a warning, but the main
flow reads the delivery_status column without a guard before reaching the
classifier and so raises a KeyError: the analysis does fault. -/
theorem missing_status_column_bug :
    analyze_failures ⟨true, false, false, [⟨some "1234567890", none, none⟩]⟩
      = ([], ["Delivery Status column not found"])
    ∧ successCount ⟨true, false, false, [⟨some "1234567890", none, none⟩]⟩
      = Except.error "KeyError: delivery_status" :=
  ⟨rfl, rfl⟩

/-- C7: the exported contact list for a reason equals the first-seen
deduplication of the phone numbers of exactly the failed rows whose
failure_reason equals that reason; it has no duplicates, its members are
exactly the phone numbers of the matching rows, and it is a sublist of the
matching column, so first-seen order is preserved. -/
theorem contacts_dedup_exact (failedRows : List FailedRow) (reason : String) :
    contact_csv failedRows reason
      = specFirstSeen ((filtered_contacts failedRows reason).map fun r => r.phone_number)
    ∧ (contact_csv failedRows reason).Nodup
    ∧ (∀ x, x ∈ contact_csv failedRows reason ↔
        ∃ r ∈ failedRows, r.failure_reason = some reason ∧ r.phone_number = x)
    ∧ List.Sublist (contact_csv failedRows reason)
        ((filtered_contacts failedRows reason).map fun r => r.phone_number) := by
  refine ⟨(specFirstSeen_eq_dedupFirst _).symm, dedupAux_nodup _ _, ?_, dedupAux_sublist _ _⟩
  intro x
  unfold contact_csv dedupFirst
  rw [dedupAux_mem]
  simp only [List.not_mem_nil, not_false_iff, and_true, List.mem_map, filtered_contacts,
    List.mem_filter, beq_iff_eq]
  constructor
  · rintro ⟨r, ⟨hr, heq⟩, hx⟩
    exact ⟨r, hr, heq, hx⟩
  · rintro ⟨r, hr, heq, hx⟩
    exact ⟨r, ⟨hr, heq⟩, hx⟩

/-- C8: a raw phone value without any digit character yields the empty
phone_clean in the pipeline and is marked invalid. -/
theorem no_digits_empty_invalid (raw : String) (h : ∀ c ∈ raw.data, c.isDigit = false) :
    pipeline_phone_clean (some raw) = ""
    ∧ is_valid (pipeline_phone_clean (some raw)) = false := by
  have h1 : extractPhone (some raw) = none := by
    unfold extractPhone firstDigitRun
    rw [show pyStr (some raw) = raw from rfl, findRun_eq_none _ h]
    rfl
  have h2 : pipeline_phone_clean (some raw) = "" := by
    unfold pipeline_phone_clean
    rw [h1]
    decide
  rw [h2]
  exact ⟨rfl, by decide⟩

/-- C8 witness: the concrete digit-free input abc+- yields the empty
cleaned phone and is invalid. -/
theorem no_digits_empty_invalid_witness :
    pipeline_phone_clean (some "abc+-") = ""
    ∧ is_valid (pipeline_phone_clean (some "abc+-")) = false :=
  no_digits_empty_invalid "abc+-" (by decide)

/-- C9: on a dataset with zero rows every percentage of the overview and of
the phone-validity section divides by the row count with no guard, so none
of them has a defined value. -/
theorem zero_rows_pct_undefined (t : Table) (h : t.rows = []) :
    success_pct t = none ∧ failed_pct t = none
    ∧ valid_pct t = none ∧ invalid_pct t = none := by
  have ht : total_messages t = 0 := by simp [total_messages, h]
  simp [success_pct, failed_pct, valid_pct, invalid_pct, pct, ht]

/-- C9 witness: the concrete empty table has no defined percentages. -/
theorem zero_rows_pct_undefined_witness :
    success_pct ⟨true, true, true, []⟩ = none ∧ failed_pct ⟨true, true, true, []⟩ = none
    ∧ valid_pct ⟨true, true, true, []⟩ = none ∧ invalid_pct ⟨true, true, true, []⟩ = none :=
  zero_rows_pct_undefined ⟨true, true, true, []⟩ rfl

/-- C10: the digit-run extraction applied by analyze_failures to a phone
cell already produced by the extraction in load_data leaves the cell
unchanged. -/
theorem extract_idempotent (raw : Option String) :
    extractPhone (extractPhone raw) = extractPhone raw := by
  cases h : findRun (pyStr raw).data with
  | none =>
    have h0 : extractPhone raw = none := by
      unfold extractPhone firstDigitRun
      rw [h]
      rfl
    rw [h0]
    decide
  | some r =>
    have hs := findRun_sound _ _ h
    have h0 : extractPhone raw = some (String.mk r) := by
      unfold extractPhone firstDigitRun
      rw [h]
      rfl
    rw [h0]
    show (findRun r).map String.mk = some (String.mk r)
    rw [findRun_all_digits r hs.2 hs.1]
    rfl

end WhatsAppTracker
